import Mathlib

/-!
Shallow embedding of the Crawly scraping/discovery engine (src/bot.py):
the rate-limited HTTP client wrapper, the wordlist path-discovery
algorithm, the directory-listing analyzer and the result paginator,
together with the per-user command rate limiter.

Library calls of the Python source (urllib.parse, the re module,
BeautifulSoup, bytes.decode) are modelled by explicit Lean functions or by
oracle parameters, as documented on each definition.  Wall-clock time is
modelled by the rationals.
-/

namespace Crawly

/-- `RATE_LIMIT = 5` seconds between requests per user (src/bot.py line 42). -/
def RATE_LIMIT : Int := 5

/-- `MAX_CONTENT_LENGTH = 10 * 1024 * 1024` bytes (src/bot.py line 46). -/
def MAX_CONTENT_LENGTH : Nat := 10 * 1024 * 1024

/-- `COMMON_DIRS` wordlist (src/bot.py lines 59-64). -/
def COMMON_DIRS : List String :=
  ["admin", "administrator", "login", "wp-admin", "wp-login", "api", "v1", "v2", "rest",
   "dashboard", "panel", "uploads", "images", "assets", "backup", "old", "dev", "test",
   "config", "docs", "includes", "scripts", "data", "logs", "private", "secure", "user",
   "shop", "blog", "search"]

/-- `COMMON_FILES` wordlist (src/bot.py lines 66-70). -/
def COMMON_FILES : List String :=
  ["robots.txt", "sitemap.xml", "favicon.ico", "humans.txt", "security.txt", "manifest.json",
   "index.html", "index.php", "login.php", "register.php", "admin.php", "config.php",
   "db.php", "readme.txt", "phpinfo.php", "backup.sql", "wp-config.php", ".env", "package.json"]

/-- `DIRECTORY_INDICATORS` (src/bot.py lines 72-75). -/
def DIRECTORY_INDICATORS : List String :=
  ["index of", "directory listing", "parent directory", "name", "size", "modified",
   "<title>index of", "apache", "nginx"]

/-- Model of the Python substring test `needle in hay`:
some contiguous run of `hay` equals `needle`. -/
def containsSub (hay needle : String) : Bool :=
  (List.range (hay.data.length + 1)).any
    (fun i => needle.data.isPrefixOf (hay.data.drop i))

/-- Whether `s` starts with `p` (model of Python `str.startswith`). -/
def strStartsWith (s p : String) : Bool :=
  p.data.isPrefixOf s.data

/-- ASCII lowercasing of one character (model of `str.lower`, restricted
to ASCII text). -/
def lowerChar (c : Char) : Char :=
  if 'A' ≤ c ∧ c ≤ 'Z' then Char.ofNat (c.toNat + 32) else c

/-- ASCII lowercasing of a string (model of `str.lower`). -/
def strToLower (s : String) : String :=
  String.mk (s.data.map lowerChar)

/-- The characters Python `str.strip()` removes (ASCII whitespace). -/
def isSpaceChar (c : Char) : Bool :=
  c = ' ' ∨ c = '\t' ∨ c = '\n' ∨ c = '\r' ∨ c = '\x0b' ∨ c = '\x0c'

/-- Model of Python `str.strip()` with no arguments. -/
def pyStrip (s : String) : String :=
  String.mk (((s.data.dropWhile isSpaceChar).reverse.dropWhile isSpaceChar).reverse)

/-- `is_dir_listing` (src/bot.py lines 104-106): lowercases the html and
checks whether any entry of `DIRECTORY_INDICATORS` occurs as a substring. -/
def is_dir_listing (html : String) : Bool :=
  DIRECTORY_INDICATORS.any (fun k => containsSub (strToLower html) k)

/-- The network-location part of a URL that starts with `http://` or
`https://`: the characters after the `//` up to the first `/`, `?` or `#`.
Model of the `netloc` field of `urllib.parse.urlparse`, restricted to
lowercase-scheme absolute URLs. -/
def netlocOf (url : String) : String :=
  let rest :=
    if strStartsWith url "http://" then (url.data.drop 7)
    else if strStartsWith url "https://" then (url.data.drop 8)
    else []
  String.mk (rest.takeWhile (fun c => c ≠ '/' ∧ c ≠ '?' ∧ c ≠ '#'))

/-- `is_valid_url` (src/bot.py lines 79-84): scheme in `http`/`https` and a
non-empty netloc.  Model restricted to lowercase schemes written with
`://` (for which `urlparse` yields exactly this answer). -/
def is_valid_url (url : String) : Bool :=
  (strStartsWith url "http://" ∨ strStartsWith url "https://") ∧ netlocOf url ≠ ""

/-- The scheme of a lowercase http/https URL, without the separator. -/
def schemeOf (url : String) : String :=
  if strStartsWith url "https://" then "https" else "http"

/-- The `scheme://netloc` part of a lowercase http/https URL. -/
def originOf (url : String) : String :=
  schemeOf url ++ "://" ++ netlocOf url

/-- The path component of a lowercase http/https URL: everything after the
netloc up to the first `?` or `#`. -/
def pathOf (url : String) : String :=
  let rest :=
    if strStartsWith url "http://" then (url.data.drop 7)
    else if strStartsWith url "https://" then (url.data.drop 8)
    else url.data
  String.mk ((rest.dropWhile (fun c => c ≠ '/' ∧ c ≠ '?' ∧ c ≠ '#')).takeWhile
    (fun c => c ≠ '?' ∧ c ≠ '#'))

/-- Everything of `p` up to and including its last `/`; `"/"` when `p` has
no `/` (the merge rule of RFC 3986 §5.3 for a base with authority). -/
def dirOf (p : String) : String :=
  let rev := p.data.reverse
  let kept := rev.dropWhile (fun c => c ≠ '/')
  if kept = [] then "/" else String.mk kept.reverse

/-- Model of `urllib.parse.urljoin(base, href)` restricted to the shapes the
analyzer meets: a lowercase http/https `base`, and an `href` that is empty,
an absolute http/https URL, protocol-relative (`//…`), root-relative
(`/…`), or a plain relative path without `.`/`..` segments, query-only or
fragment-only forms. -/
def urljoin (base href : String) : String :=
  if href = "" then base
  else if strStartsWith href "http://" ∨ strStartsWith href "https://" then href
  else if strStartsWith href "//" then schemeOf base ++ ":" ++ href
  else if strStartsWith href "/" then originOf base ++ href
  else originOf base ++ dirOf (pathOf base) ++ href

/-- ASCII letters and digits: the character class `[a-z0-9]` under
`re.IGNORECASE` (restricted to ASCII, as in every URL the analyzer sees). -/
def isAlnumAscii (c : Char) : Bool :=
  (('a' ≤ c ∧ c ≤ 'z') ∨ ('A' ≤ c ∧ c ≤ 'Z') ∨ ('0' ≤ c ∧ c ≤ '9'))

/-- Model of `re.search(r"\.[a-z0-9]{1,4}$", s, re.I)` being a match: the
maximal trailing run of ASCII alphanumerics has length 1 to 4 and is
immediately preceded by a dot. -/
def hasExt (s : String) : Bool :=
  let rev := s.data.reverse
  let run := rev.takeWhile isAlnumAscii
  (decide (1 ≤ run.length) && decide (run.length ≤ 4)) &&
    (match rev.drop run.length with
     | '.' :: _ => true
     | _ => false)

/-- Model of Python `str.rstrip("/")`: drop every trailing `/`. -/
def rstripSlash (s : String) : String :=
  String.mk (s.data.reverse.dropWhile (fun c => c = '/')).reverse

/-- Truncation toward zero, the behaviour of Python `int()` on a float. -/
def pyTrunc (q : ℚ) : Int :=
  if 0 ≤ q then q.floor else -((-q).floor)

/-- `check_rate_limit` (src/bot.py lines 86-92).  The module-level dict
`user_last_request` is passed and returned explicitly; `.get(user_id, 0)`
becomes `getD`; a denial returns the wait message and the dict unchanged,
a pass stores `now` for the user.  Clock values are rationals. -/
def check_rate_limit (state : Nat → Option ℚ) (user_id : Nat) (now : ℚ) :
    Option String × (Nat → Option ℚ) :=
  let last := (state user_id).getD 0
  if now - last < (RATE_LIMIT : ℚ) then
    (some ("Please wait " ++ toString (RATE_LIMIT - pyTrunc (now - last)) ++
      " s before making another request."), state)
  else
    (none, Function.update state user_id (some now))

/-- A successful HTTP exchange as aiohttp reports it after following
redirects: `url` is the final URL (`str(r.url)`), `body` the raw bytes. -/
structure HttpResponse where
  url : String
  status : Nat
  headers : List (String × String)
  body : List Nat
deriving DecidableEq, Repr

/-- The outcome of one network exchange underneath `head`/`get_raw`:
a response, an `aiohttp.ClientError` with its message, or any other
exception with its message. -/
inductive Transport where
  | resp : HttpResponse → Transport
  | clientError : String → Transport
  | otherError : String → Transport
deriving DecidableEq, Repr

/-- The dict returned by `WebScraper.head` (src/bot.py lines 134-149);
absent keys are `none`. -/
structure HeadResult where
  ok : Bool
  url : String
  status : Option Nat := none
  type : Option String := none
  error : Option String := none
deriving DecidableEq, Repr

/-- `WebScraper.head` (src/bot.py lines 134-149) over a network oracle
`net` mapping each URL to its exchange outcome.  The content type is
`r.headers.get("content-type", "")` (modelled as an exact-key lookup). -/
def head (net : String → Transport) (url : String) : HeadResult :=
  match net url with
  | .resp r =>
      { ok := true, url := r.url, status := some r.status,
        type := some ((r.headers.lookup "content-type").getD "") }
  | .clientError e => { ok := false, error := some ("HTTP error: " ++ e), url := url }
  | .otherError e => { ok := false, error := some e, url := url }

/-- The dict built up by `get_raw` / `fetch_page` / `analyze_dir`
(src/bot.py lines 152-216); each Python key is an optional field, `none`
when the key is absent from the dict. -/
structure PageResult where
  ok : Bool
  url : Option String := none
  status : Option Nat := none
  headers : Option (List (String × String)) := none
  body : Option (List Nat) := none
  error : Option String := none
  soup : Option (List String) := none
  text : Option String := none
  is_dir : Option Bool := none
  is_listing : Option Bool := none
  server : Option String := none
  links : Option (List String) := none
  files : Option (List String) := none
deriving DecidableEq, Repr

/-- `WebScraper.get_raw` (src/bot.py lines 152-172): rejects a body longer
than `MAX_CONTENT_LENGTH` bytes after the full read, otherwise returns the
success dict. -/
def get_raw (net : String → Transport) (url : String) : PageResult :=
  match net url with
  | .resp r =>
      if MAX_CONTENT_LENGTH < r.body.length then
        { ok := false, error := some "Content too large", status := some r.status }
      else
        { ok := true, url := some r.url, status := some r.status,
          headers := some r.headers, body := some r.body }
  | .clientError e => { ok := false, error := some ("HTTP error: " ++ e), url := some url }
  | .otherError e => { ok := false, error := some e, url := some url }

/-- `WebScraper.fetch_page` (src/bot.py lines 175-182).  `decode` models
`bytes.decode("utf-8", errors="ignore")` and `anchorsOf` models
BeautifulSoup's `find_all("a", href=True)`, returning the `href` attribute
values in document order. -/
def fetch_page (decode : List Nat → String) (anchorsOf : String → List String)
    (net : String → Transport) (url : String) : PageResult :=
  let res := get_raw net url
  if !res.ok then res
  else
    let html := decode (res.body.getD [])
    { res with soup := some (anchorsOf html), text := some html,
               is_dir := some (is_dir_listing html) }

/-- The report dict returned by `WebScraper.discover`
(src/bot.py line 190). -/
structure DiscoveryReport where
  ok : Bool
  found : List HeadResult
  checked : Nat
  base : String
deriving DecidableEq, Repr

/-- The status whitelist test of src/bot.py line 189:
`r.get("ok") and r.get("status") in {200, 301, 302, 403}`. -/
def foundFilter (r : HeadResult) : Bool :=
  r.ok && decide (r.status = some 200 ∨ r.status = some 301 ∨
                  r.status = some 302 ∨ r.status = some 403)

/-- The probe results of `discover` in wordlist order: `asyncio.gather`
returns its results in the order the tasks were passed. -/
def probeResults (net : String → Transport) (base : String) : List HeadResult :=
  (COMMON_DIRS ++ COMMON_FILES).map
    (fun w => head net (rstripSlash base ++ "/" ++ w))

/-- `WebScraper.discover` (src/bot.py lines 184-190). -/
def discover (net : String → Transport) (base : String) : DiscoveryReport :=
  let wordlist := COMMON_DIRS ++ COMMON_FILES
  let found := (probeResults net base).filter foundFilter
  { ok := true, found := found, checked := wordlist.length, base := rstripSlash base }

/-- The classification loop of `analyze_dir` (src/bot.py lines 197-207),
written as structural recursion that keeps the append order of the Python
loop; returns `(links, files)` before the `[:20]` truncation. -/
def collectTargets (url : String) : List String → List String × List String
  | [] => ([], [])
  | h :: rest =>
      let href := pyStrip h
      let full := urljoin url href
      let ls := (collectTargets url rest).1
      let fs := (collectTargets url rest).2
      if !is_valid_url full then (ls, fs)
      else if hasExt href then (ls, full :: fs)
      else (full :: ls, fs)

/-- `WebScraper.analyze_dir` (src/bot.py lines 192-216).  Note that line
201 resolves each href against the `url` argument of `analyze_dir`, and
line 204 runs the extension regex on the raw (stripped) href. -/
def analyze_dir (decode : List Nat → String) (anchorsOf : String → List String)
    (net : String → Transport) (url : String) : PageResult :=
  let res := fetch_page decode anchorsOf net url
  if !res.ok then res
  else
    let lf := collectTargets url (res.soup.getD [])
    { ok := true,
      url := res.url,
      status := res.status,
      is_listing := res.is_dir,
      server := some (((res.headers.getD []).lookup "server").getD ""),
      links := some (lf.1.take 20),
      files := some (lf.2.take 20) }

/-- Model of Python `s.replace(pat, "")` on character lists: remove every
(left-to-right, non-overlapping) occurrence of a non-empty `pat`. -/
def removeAllAux (pat : List Char) : List Char → List Char
  | [] => []
  | c :: rest =>
      if h : pat ≠ [] ∧ pat.isPrefixOf (c :: rest) then
        removeAllAux pat ((c :: rest).drop pat.length)
      else c :: removeAllAux pat rest
termination_by l => l.length
decreasing_by
  · simp only [List.length_drop, List.length_cons]
    have hp : pat.length ≠ 0 := fun h0 => h.1 (List.length_eq_zero.mp h0)
    omega
  · simp only [List.length_cons]
    omega

/-- Model of Python `s.replace(pat, "")`. -/
def removeAll (s pat : String) : String :=
  if pat = "" then s else String.mk (removeAllAux pat.data s.data)

/-- The state of a `DirectoryView` (src/bot.py lines 503-547).  The integer
fields are Python ints, so `Int`. -/
structure DirectoryView where
  base_url : String
  found : List HeadResult
  page_size : Int
  current_page : Int
  max_pages : Int
deriving DecidableEq, Repr

/-- `DirectoryView.__init__` (src/bot.py lines 504-510): `page_size = 10`,
`current_page = 0`, `max_pages = (len(found) + page_size - 1) // page_size`
(floor division of non-negative ints, hence `Nat` division). -/
def DirectoryView.init (base_url : String) (found : List HeadResult) : DirectoryView :=
  { base_url := base_url, found := found, page_size := 10, current_page := 0,
    max_pages := (((found.length + 10 - 1) / 10 : Nat) : Int) }

/-- The `page_items` slice of `_get_page_content` (src/bot.py lines
512-515): `found[start:end]` with `start = current_page * page_size`.
Modelled for the reachable states, where `current_page ≥ 0`. -/
def DirectoryView.page_items (v : DirectoryView) : List HeadResult :=
  (v.found.drop (v.current_page * v.page_size).toNat).take v.page_size.toNat

/-- `_get_page_content` (src/bot.py lines 512-517): one line per item in
the current window, `"(none)"` when the joined text is empty. -/
def DirectoryView.get_page_content (v : DirectoryView) : String :=
  let lines := v.page_items.map
    (fun d => "`" ++ removeAll d.url v.base_url ++ "` → " ++ toString (d.status.getD 0))
  let joined := String.intercalate "\n" lines
  if joined = "" then "(none)" else joined

/-- The state change of the `prev_page` button (src/bot.py lines 527-536):
decrement only when `current_page > 0`. -/
def DirectoryView.prev_page (v : DirectoryView) : DirectoryView :=
  if 0 < v.current_page then { v with current_page := v.current_page - 1 } else v

/-- The state change of the `next_page` button (src/bot.py lines 538-547):
increment only when `current_page < max_pages - 1`. -/
def DirectoryView.next_page (v : DirectoryView) : DirectoryView :=
  if v.current_page < v.max_pages - 1 then { v with current_page := v.current_page + 1 } else v

/-- A navigation button press. -/
inductive NavOp where
  | retreat : NavOp
  | advance : NavOp
deriving DecidableEq, Repr

/-- Apply one button press. -/
def navStep (v : DirectoryView) : NavOp → DirectoryView
  | .retreat => v.prev_page
  | .advance => v.next_page

/-- Apply a sequence of button presses. -/
def runNav (v : DirectoryView) (ops : List NavOp) : DirectoryView :=
  ops.foldl navStep v

/-- `min_request_interval = 1.0` (src/bot.py line 114). -/
def min_request_interval : ℚ := 1

/-- Where one task is inside `WebScraper._rate_limit` (src/bot.py lines
125-131): not yet entered, suspended in `asyncio.sleep` until the given
wake time, or finished with the time at which the request was dispatched
(the stamp written to `last_request_time` just before the request). -/
inductive RLPhase where
  | start : RLPhase
  | sleeping : ℚ → RLPhase
  | finished : ℚ → RLPhase
deriving DecidableEq, Repr

/-- The shared state of the cooperative scheduler: the event-loop clock,
the scraper's `last_request_time`, and the phase of every task. -/
structure RLSys where
  clock : ℚ
  last : ℚ
  tasks : List RLPhase
deriving DecidableEq, Repr

/-- A task is runnable when it has not entered `_rate_limit` yet, or its
sleep timer has expired. -/
def rlRunnable (clock : ℚ) : RLPhase → Bool
  | .start => true
  | .sleeping w => decide (w ≤ clock)
  | .finished _ => false

/-- One task executing its next atomic segment of `_rate_limit` under
asyncio's run-to-completion semantics (the only suspension point is the
`await asyncio.sleep`): on entry it reads the clock and either registers a
sleep until `now + (interval - elapsed)` or stamps `last_request_time` and
dispatches; on wake it stamps the current clock and dispatches.  Returns
the new phase and the new `last_request_time`. -/
def rlStepTask (clock last : ℚ) : RLPhase → RLPhase × ℚ
  | .start =>
      let elapsed := clock - last
      if elapsed < min_request_interval then
        (.sleeping (clock + (min_request_interval - elapsed)), last)
      else (.finished clock, clock)
  | .sleeping _ => (.finished clock, clock)
  | .finished t => (.finished t, last)

/-- A scheduler action: run one runnable task, or advance the clock. -/
inductive RLAct where
  | run : Nat → RLAct
  | tick : RLAct
deriving DecidableEq, Repr

/-- The pending wake times. -/
def rlWakes (tasks : List RLPhase) : List ℚ :=
  tasks.filterMap (fun t => match t with | .sleeping w => some w | _ => none)

/-- One scheduler step.  `run i` executes task `i` if it is runnable;
`tick` is only enabled when no task is runnable and moves the clock to the
earliest pending wake time, exactly as the asyncio event loop does. -/
def rlStep (s : RLSys) (a : RLAct) : RLSys :=
  match a with
  | .run i =>
      match s.tasks.get? i with
      | some ph =>
          if rlRunnable s.clock ph then
            let pr := rlStepTask s.clock s.last ph
            { s with tasks := s.tasks.set i pr.1, last := pr.2 }
          else s
      | none => s
  | .tick =>
      if s.tasks.any (rlRunnable s.clock) then s
      else
        match (rlWakes s.tasks).min? with
        | some w => { s with clock := w }
        | none => s

/-- Run a schedule. -/
def rlRun (s : RLSys) (acts : List RLAct) : RLSys :=
  acts.foldl rlStep s

/-- The classification the SPEC describes for a resolved target: its path
component ends in a dot followed by 1 to 4 alphanumeric characters.
Stated from the spec's words, for comparison with the code's behaviour of
running the extension regex on the raw href. -/
def specFileByPath (target : String) : Bool :=
  hasExt (pathOf target)

/-- A network where every probe answers 200 with its own URL. -/
def constNet200 : String → Transport :=
  fun u => .resp { url := u, status := 200, headers := [], body := [] }

/-- A decode oracle for pages whose body is irrelevant. -/
def nullDecode : List Nat → String :=
  fun _ => ""

/-- A network whose one page redirects: the final URL differs from the
requested URL. -/
def redirNet : String → Transport :=
  fun _ => .resp { url := "http://b.com/x/", status := 200, headers := [], body := [] }

/-- An anchor oracle: the page holds one anchor with a relative href. -/
def relAnchors : String → List String :=
  fun _ => ["page.html"]

/-- A network serving one page at its requested location. -/
def plainNet : String → Transport :=
  fun _ => .resp { url := "http://a.com/", status := 200, headers := [], body := [] }

/-- An anchor oracle: one anchor whose href carries a query string. -/
def queryAnchors : String → List String :=
  fun _ => ["b.php?x=1"]

/-- A body one byte over the `MAX_CONTENT_LENGTH` cap. -/
def bigBody : List Nat :=
  List.replicate (MAX_CONTENT_LENGTH + 1) 0

/-- The oversized response. -/
def bigResp : HttpResponse :=
  { url := "http://e.com/big", status := 200, headers := [], body := bigBody }

/-- A network serving the oversized response. -/
def bigNet : String → Transport :=
  fun _ => .resp bigResp

/-- Initial scheduler state: five probe tasks created together by
`asyncio.gather` (as `discover` does), event-loop clock at 100 s, and the
scraper's fresh `last_request_time = 0`. -/
def rlInit : RLSys :=
  { clock := 100, last := 0, tasks := List.replicate 5 .start }

/-- A schedule the asyncio event loop produces for the five tasks: each
task runs its first segment, then the loop advances to the earliest wake
time, then the four sleepers resume. -/
def rlSched : List RLAct :=
  [.run 0, .run 1, .run 2, .run 3, .run 4, .tick, .run 1, .run 2, .run 3, .run 4]

/-- A rate-limiter state where every user last made a request at time 100. -/
def stDen : Nat → Option ℚ :=
  fun _ => some 100

/-- A probe result that passed the whitelist. -/
def probeOk : HeadResult :=
  { ok := true, url := "http://e.com/admin", status := some 200, type := some "" }

/-- A found list with 23 items, for the paginator instance of the spec. -/
def found23 : List HeadResult :=
  (List.range 23).map (fun i => { ok := true, url := "http://e.com/p", status := some i })

/-! Helper lemmas shared by the claim theorems. -/

lemma isPrefixOf_exists_append :
    ∀ (l₁ l₂ : List Char), l₁.isPrefixOf l₂ = true ↔ ∃ t, l₂ = l₁ ++ t := by
  intro l₁
  induction l₁ with
  | nil =>
      intro l₂
      simp [List.isPrefixOf]
  | cons a l ih =>
      intro l₂
      cases l₂ with
      | nil => simp [List.isPrefixOf]
      | cons b l₂ =>
          simp only [List.isPrefixOf, Bool.and_eq_true, beq_iff_eq, ih, List.cons_append,
            List.cons.injEq]
          constructor
          · rintro ⟨rfl, t, rfl⟩
            exact ⟨t, rfl, rfl⟩
          · rintro ⟨t, rfl, rfl⟩
            exact ⟨rfl, t, rfl⟩

lemma containsSub_iff (hay needle : String) :
    containsSub hay needle = true ↔ ∃ l r, hay.data = l ++ needle.data ++ r := by
  unfold containsSub
  rw [List.any_eq_true]
  constructor
  · rintro ⟨i, _hi, hp⟩
    rw [isPrefixOf_exists_append] at hp
    obtain ⟨t, ht⟩ := hp
    refine ⟨hay.data.take i, t, ?_⟩
    conv_lhs => rw [← List.take_append_drop i hay.data]
    rw [ht, List.append_assoc]
  · rintro ⟨l, r, h⟩
    refine ⟨l.length, ?_, ?_⟩
    · rw [List.mem_range]
      have hlen := congrArg List.length h
      simp only [List.length_append] at hlen
      omega
    · rw [isPrefixOf_exists_append]
      refine ⟨r, ?_⟩
      rw [h, List.append_assoc, List.drop_left]

lemma collectTargets_cons_invalid (url h : String) (rest : List String)
    (hv : is_valid_url (urljoin url (pyStrip h)) = false) :
    collectTargets url (h :: rest) = collectTargets url rest := by
  simp [collectTargets, hv]

lemma collectTargets_cons_file (url h : String) (rest : List String)
    (hv : is_valid_url (urljoin url (pyStrip h)) = true) (he : hasExt (pyStrip h) = true) :
    collectTargets url (h :: rest) =
      ((collectTargets url rest).1, urljoin url (pyStrip h) :: (collectTargets url rest).2) := by
  simp [collectTargets, hv, he]

lemma collectTargets_cons_link (url h : String) (rest : List String)
    (hv : is_valid_url (urljoin url (pyStrip h)) = true) (he : hasExt (pyStrip h) = false) :
    collectTargets url (h :: rest) =
      (urljoin url (pyStrip h) :: (collectTargets url rest).1, (collectTargets url rest).2) := by
  simp [collectTargets, hv, he]

lemma collectTargets_links_spec (url : String) :
    ∀ (hs : List String) (t : String), t ∈ (collectTargets url hs).1 →
      ∃ h ∈ hs, t = urljoin url (pyStrip h) ∧ hasExt (pyStrip h) = false ∧ is_valid_url t = true := by
  intro hs
  induction hs with
  | nil =>
      intro t ht
      simp [collectTargets] at ht
  | cons h rest ih =>
      intro t ht
      by_cases hv : is_valid_url (urljoin url (pyStrip h)) = true
      · by_cases he : hasExt (pyStrip h) = true
        · rw [collectTargets_cons_file url h rest hv he] at ht
          obtain ⟨g, hg, hrest⟩ := ih t ht
          exact ⟨g, List.mem_cons_of_mem h hg, hrest⟩
        · rw [collectTargets_cons_link url h rest hv (Bool.eq_false_iff.mpr he)] at ht
          rcases List.mem_cons.mp ht with rfl | ht
          · exact ⟨h, List.mem_cons_self h rest, rfl, Bool.eq_false_iff.mpr he, hv⟩
          · obtain ⟨g, hg, hrest⟩ := ih t ht
            exact ⟨g, List.mem_cons_of_mem h hg, hrest⟩
      · rw [collectTargets_cons_invalid url h rest (Bool.eq_false_iff.mpr hv)] at ht
        obtain ⟨g, hg, hrest⟩ := ih t ht
        exact ⟨g, List.mem_cons_of_mem h hg, hrest⟩

lemma collectTargets_files_spec (url : String) :
    ∀ (hs : List String) (t : String), t ∈ (collectTargets url hs).2 →
      ∃ h ∈ hs, t = urljoin url (pyStrip h) ∧ hasExt (pyStrip h) = true ∧ is_valid_url t = true := by
  intro hs
  induction hs with
  | nil =>
      intro t ht
      simp [collectTargets] at ht
  | cons h rest ih =>
      intro t ht
      by_cases hv : is_valid_url (urljoin url (pyStrip h)) = true
      · by_cases he : hasExt (pyStrip h) = true
        · rw [collectTargets_cons_file url h rest hv he] at ht
          rcases List.mem_cons.mp ht with rfl | ht
          · exact ⟨h, List.mem_cons_self h rest, rfl, he, hv⟩
          · obtain ⟨g, hg, hrest⟩ := ih t ht
            exact ⟨g, List.mem_cons_of_mem h hg, hrest⟩
        · rw [collectTargets_cons_link url h rest hv (Bool.eq_false_iff.mpr he)] at ht
          obtain ⟨g, hg, hrest⟩ := ih t ht
          exact ⟨g, List.mem_cons_of_mem h hg, hrest⟩
      · rw [collectTargets_cons_invalid url h rest (Bool.eq_false_iff.mpr hv)] at ht
        obtain ⟨g, hg, hrest⟩ := ih t ht
        exact ⟨g, List.mem_cons_of_mem h hg, hrest⟩

lemma collectTargets_links_sublist (url : String) :
    ∀ hs : List String,
      (collectTargets url hs).1.Sublist (hs.map (fun h => urljoin url (pyStrip h))) := by
  intro hs
  induction hs with
  | nil => simp [collectTargets]
  | cons h rest ih =>
      by_cases hv : is_valid_url (urljoin url (pyStrip h)) = true
      · by_cases he : hasExt (pyStrip h) = true
        · rw [collectTargets_cons_file url h rest hv he]
          exact List.Sublist.cons _ ih
        · rw [collectTargets_cons_link url h rest hv (Bool.eq_false_iff.mpr he)]
          exact List.Sublist.cons₂ _ ih
      · rw [collectTargets_cons_invalid url h rest (Bool.eq_false_iff.mpr hv)]
        exact List.Sublist.cons _ ih

lemma collectTargets_files_sublist (url : String) :
    ∀ hs : List String,
      (collectTargets url hs).2.Sublist (hs.map (fun h => urljoin url (pyStrip h))) := by
  intro hs
  induction hs with
  | nil => simp [collectTargets]
  | cons h rest ih =>
      by_cases hv : is_valid_url (urljoin url (pyStrip h)) = true
      · by_cases he : hasExt (pyStrip h) = true
        · rw [collectTargets_cons_file url h rest hv he]
          exact List.Sublist.cons₂ _ ih
        · rw [collectTargets_cons_link url h rest hv (Bool.eq_false_iff.mpr he)]
          exact List.Sublist.cons _ ih
      · rw [collectTargets_cons_invalid url h rest (Bool.eq_false_iff.mpr hv)]
        exact List.Sublist.cons _ ih

lemma fetch_page_no_analysis (decode : List Nat → String) (anchorsOf : String → List String)
    (net : String → Transport) (url : String) :
    (fetch_page decode anchorsOf net url).links = none ∧
    (fetch_page decode anchorsOf net url).files = none := by
  unfold fetch_page get_raw
  cases net url with
  | resp r =>
      by_cases hb : MAX_CONTENT_LENGTH < r.body.length <;> simp [hb]
  | clientError e => simp
  | otherError e => simp

lemma analyze_dir_success (decode : List Nat → String) (anchorsOf : String → List String)
    (net : String → Transport) (url : String)
    (hok : (fetch_page decode anchorsOf net url).ok = true) :
    analyze_dir decode anchorsOf net url =
      { ok := true,
        url := (fetch_page decode anchorsOf net url).url,
        status := (fetch_page decode anchorsOf net url).status,
        is_listing := (fetch_page decode anchorsOf net url).is_dir,
        server := some
          ((((fetch_page decode anchorsOf net url).headers.getD []).lookup "server").getD ""),
        links := some
          ((collectTargets url ((fetch_page decode anchorsOf net url).soup.getD [])).1.take 20),
        files := some
          ((collectTargets url ((fetch_page decode anchorsOf net url).soup.getD [])).2.take 20) } := by
  unfold analyze_dir
  simp [hok]

lemma analyze_dir_failure (decode : List Nat → String) (anchorsOf : String → List String)
    (net : String → Transport) (url : String)
    (hok : (fetch_page decode anchorsOf net url).ok = false) :
    analyze_dir decode anchorsOf net url = fetch_page decode anchorsOf net url := by
  unfold analyze_dir
  simp [hok]

/-! The claim theorems. -/

/-- C1: for every network and base URL, the report of `discover` has
`checked` equal to the wordlist length (the concatenation of `COMMON_DIRS`
and `COMMON_FILES`), `found` exactly the probe results that returned ok
with status in 200/301/302/403 (so no other status appears in `found`),
kept in wordlist order (a sublist of the in-order probe results, which
`asyncio.gather` returns in task order), and hence
`found.length ≤ checked`. -/
theorem discover_report_wordlist_spec (net : String → Transport) (base : String) :
    (discover net base).checked = (COMMON_DIRS ++ COMMON_FILES).length ∧
    (discover net base).found = (probeResults net base).filter foundFilter ∧
    (∀ r ∈ (discover net base).found,
      r.ok = true ∧ (r.status = some 200 ∨ r.status = some 301 ∨
        r.status = some 302 ∨ r.status = some 403)) ∧
    (discover net base).found.Sublist (probeResults net base) ∧
    (discover net base).found.length ≤ (discover net base).checked := by
  refine ⟨rfl, rfl, ?_, ?_, ?_⟩
  · intro r hr
    have hf : foundFilter r = true := (List.mem_filter.mp hr).2
    unfold foundFilter at hf
    simp only [Bool.and_eq_true, decide_eq_true_eq] at hf
    exact hf
  · exact List.filter_sublist _
  · have h1 : ((probeResults net base).filter foundFilter).length ≤
        (probeResults net base).length := List.length_filter_le _ _
    have h2 : (probeResults net base).length = (COMMON_DIRS ++ COMMON_FILES).length :=
      List.length_map _ _
    have h3 : (discover net base).checked = (COMMON_DIRS ++ COMMON_FILES).length := rfl
    have h4 : (discover net base).found = (probeResults net base).filter foundFilter := rfl
    rw [h3, h4]
    omega

/-- Witness for C1: a network answering 200 everywhere, base
`http://e.com/`; the admin probe is in `found` and satisfies the
whitelist. -/
theorem discover_report_wordlist_spec_witness :
    (discover constNet200 "http://e.com/").checked = 49 ∧
    (discover constNet200 "http://e.com/").found.length ≤
      (discover constNet200 "http://e.com/").checked ∧
    (probeOk.ok = true ∧ (probeOk.status = some 200 ∨ probeOk.status = some 301 ∨
      probeOk.status = some 302 ∨ probeOk.status = some 403)) := by
  have h := discover_report_wordlist_spec constNet200 "http://e.com/"
  refine ⟨?_, h.2.2.2.2, h.2.2.1 probeOk (by decide)⟩
  rw [h.1]
  rfl

/-- C4 counterexample: for the malformed base `"not a url"`, `discover`
does not fail fast: it returns `ok = true` and has checked the full
wordlist, so no defensive re-validation happens in the core. -/
theorem discover_validates_base_refuted :
    is_valid_url "not a url" = false ∧
    (discover constNet200 "not a url").ok = true ∧
    (discover constNet200 "not a url").checked = 49 := by
  exact ⟨by decide, rfl, rfl⟩

/-- C4 corrected: `discover` performs no validation of its base argument
at all — it returns a report with `ok = true` for every base and every
network; URL validation happens only in the command layer before
`discover` is called. -/
theorem discover_always_ok (net : String → Transport) (base : String) :
    (discover net base).ok = true := rfl

/-- C5 (code bug): the check-then-sleep race of `_rate_limit`.  Five probe
tasks created together (as `discover` does) on a scraper whose last
request is long past: the first task dispatches at clock 100 and stamps
it; the other four each read the stamp, sleep until 101, and then all
dispatch at 101.  Two distinct requests are 0 < `min_request_interval`
apart, and the five dispatches span 1 second, not
`4 * min_request_interval`. -/
theorem rate_gate_concurrent_violation :
    (rlRun rlInit rlSched).tasks =
      [.finished 100, .finished 101, .finished 101, .finished 101, .finished 101] ∧
    (0 : ℚ) < min_request_interval ∧
    (101 : ℚ) - (101 : ℚ) < min_request_interval ∧
    (101 : ℚ) - (100 : ℚ) < 4 * min_request_interval := by
  refine ⟨?_, by norm_num [min_request_interval], by norm_num [min_request_interval],
    by norm_num [min_request_interval]⟩
  norm_num [rlRun, rlSched, rlInit, rlStep, rlStepTask, rlRunnable, rlWakes,
    min_request_interval, List.foldl, List.set, List.any, List.filterMap, List.min?,
    List.replicate, List.get?]

/-- C6: a GET whose body exceeds the `MAX_CONTENT_LENGTH` cap makes
`get_raw` return `ok = false` with error exactly "Content too large", and
`fetch_page` returns that failure unchanged, attaching no soup, text or
is_dir field. -/
theorem content_too_large_spec (decode : List Nat → String)
    (anchorsOf : String → List String) (net : String → Transport) (url : String)
    (r : HttpResponse) (hnet : net url = Transport.resp r)
    (hbig : MAX_CONTENT_LENGTH < r.body.length) :
    get_raw net url =
      { ok := false, error := some "Content too large", status := some r.status } ∧
    fetch_page decode anchorsOf net url =
      { ok := false, error := some "Content too large", status := some r.status } ∧
    (fetch_page decode anchorsOf net url).soup = none ∧
    (fetch_page decode anchorsOf net url).text = none ∧
    (fetch_page decode anchorsOf net url).is_dir = none := by
  have hraw : get_raw net url =
      { ok := false, error := some "Content too large", status := some r.status } := by
    unfold get_raw
    rw [hnet]
    simp [hbig]
  have hfp : fetch_page decode anchorsOf net url =
      { ok := false, error := some "Content too large", status := some r.status } := by
    unfold fetch_page
    rw [hraw]
    simp
  exact ⟨hraw, hfp, by rw [hfp], by rw [hfp], by rw [hfp]⟩

/-- Witness for C6: a response of `MAX_CONTENT_LENGTH + 1` bytes. -/
theorem content_too_large_spec_witness :
    MAX_CONTENT_LENGTH < bigResp.body.length ∧
    (fetch_page nullDecode (fun _ => []) bigNet "http://e.com/big").ok = false ∧
    (fetch_page nullDecode (fun _ => []) bigNet "http://e.com/big").error =
      some "Content too large" ∧
    (fetch_page nullDecode (fun _ => []) bigNet "http://e.com/big").soup = none ∧
    (fetch_page nullDecode (fun _ => []) bigNet "http://e.com/big").text = none ∧
    (fetch_page nullDecode (fun _ => []) bigNet "http://e.com/big").is_dir = none := by
  have hb : MAX_CONTENT_LENGTH < bigResp.body.length := by
    show MAX_CONTENT_LENGTH < bigBody.length
    rw [bigBody, List.length_replicate]
    exact Nat.lt_succ_self _
  have h := content_too_large_spec nullDecode (fun _ => []) bigNet "http://e.com/big"
    bigResp rfl hb
  refine ⟨hb, ?_, ?_, h.2.2.1, h.2.2.2.1, h.2.2.2.2⟩ <;> rw [h.2.1]

/-- C7 counterexample: the body `"name"` contains none of the five
indicator phrases the claim lists, yet `is_dir_listing` reports true,
because `DIRECTORY_INDICATORS` also holds "name", "size", "modified" and
"<title>index of". -/
theorem is_dir_listing_five_phrase_refuted :
    is_dir_listing "name" = true ∧
    (["index of", "directory listing", "parent directory", "apache", "nginx"] :
      List String).all (fun k => !containsSub "name" k) = true := by
  decide

/-- C7 corrected: `is_dir_listing` is true exactly when the lowercased
text contains one of the nine entries of `DIRECTORY_INDICATORS` (which
include bare "name", "size" and "modified" beyond the phrases the claim
lists); a body containing "Index of /uploads" in any case is flagged, and
a page containing none of the nine is not. -/
theorem is_dir_listing_indicator_spec :
    (∀ html : String, is_dir_listing html = true ↔
      ∃ k ∈ DIRECTORY_INDICATORS, ∃ l r, (strToLower html).data = l ++ k.data ++ r) ∧
    is_dir_listing "<html><title>InDeX Of /uploads</title></html>" = true ∧
    is_dir_listing "Just a plain article about cats" = false := by
  refine ⟨?_, by decide, by decide⟩
  intro html
  unfold is_dir_listing
  rw [List.any_eq_true]
  constructor
  · rintro ⟨k, hk, hc⟩
    exact ⟨k, hk, (containsSub_iff _ _).mp hc⟩
  · rintro ⟨k, hk, hlr⟩
    exact ⟨k, hk, (containsSub_iff _ _).mpr hlr⟩

/-- Witness for C7 at a concrete banner page. -/
theorem is_dir_listing_indicator_spec_witness :
    is_dir_listing "Served by Apache" = true := by
  apply (is_dir_listing_indicator_spec.1 "Served by Apache").mpr
  exact ⟨"apache", by decide, "served by ".data, [], by decide⟩

/-- C10: a denied `check_rate_limit` call (one arriving less than
`RATE_LIMIT` seconds after the stored timestamp) returns a wait message
and leaves the stored map untouched, so a denied attempt never extends
the wait; only a passing call stores the new time. -/
theorem check_rate_limit_denial_state (state : Nat → Option ℚ) (user_id : Nat) (now : ℚ) :
    ((check_rate_limit state user_id now).1.isSome = true →
      (check_rate_limit state user_id now).2 = state) ∧
    ((check_rate_limit state user_id now).1 = none →
      (check_rate_limit state user_id now).2 = Function.update state user_id (some now)) ∧
    ((check_rate_limit state user_id now).1.isSome = true ↔
      now - (state user_id).getD 0 < (RATE_LIMIT : ℚ)) := by
  unfold check_rate_limit
  by_cases hlt : now - (state user_id).getD 0 < (RATE_LIMIT : ℚ) <;> simp [hlt]

/-- Witness for C10: a user whose last request was at 100 is denied at 102
with the map unchanged, and passes at 107 with the map updated. -/
theorem check_rate_limit_denial_state_witness :
    (check_rate_limit stDen 1 102).1.isSome = true ∧
    (check_rate_limit stDen 1 102).2 = stDen ∧
    (check_rate_limit stDen 1 107).1 = none ∧
    (check_rate_limit stDen 1 107).2 = Function.update stDen 1 (some 107) := by
  have h1 := check_rate_limit_denial_state stDen 1 102
  have h2 := check_rate_limit_denial_state stDen 1 107
  have hd : (check_rate_limit stDen 1 102).1.isSome = true := by
    norm_num [check_rate_limit, stDen, RATE_LIMIT]
  have hp : (check_rate_limit stDen 1 107).1 = none := by
    norm_num [check_rate_limit, stDen, RATE_LIMIT]
  exact ⟨hd, h1.1 hd, hp, h2.2.1 hp⟩

/-- C2 counterexample: a page requested at `http://a.com/dir` whose final
URL after redirects is `http://b.com/x/`, with one anchor `page.html`.
The emitted target is the join against the input URL,
`http://a.com/page.html`, not the join against the fetch result's url
field, which would be `http://b.com/x/page.html`. -/
theorem analyze_dir_resolves_final_url_refuted :
    (analyze_dir nullDecode relAnchors redirNet "http://a.com/dir").url =
      some "http://b.com/x/" ∧
    (analyze_dir nullDecode relAnchors redirNet "http://a.com/dir").files =
      some ["http://a.com/page.html"] ∧
    urljoin "http://b.com/x/" "page.html" = "http://b.com/x/page.html" ∧
    "http://a.com/page.html" ≠ "http://b.com/x/page.html" := by
  refine ⟨by decide, by decide, by decide, by decide⟩

/-- C2 corrected: every link or file target `analyze_dir` emits is the
resolution of some anchor href of the fetched page against the INPUT url
argument of `analyze_dir` (line 201 of src/bot.py joins against `url`,
not against the final URL of the fetch result). -/
theorem analyze_dir_resolves_input_url (decode : List Nat → String)
    (anchorsOf : String → List String) (net : String → Transport) (url : String)
    (t : String)
    (ht : t ∈ (analyze_dir decode anchorsOf net url).links.getD [] ∨
          t ∈ (analyze_dir decode anchorsOf net url).files.getD []) :
    ∃ h ∈ (fetch_page decode anchorsOf net url).soup.getD [],
      t = urljoin url (pyStrip h) := by
  cases hfp : (fetch_page decode anchorsOf net url).ok with
  | true =>
      rw [analyze_dir_success decode anchorsOf net url hfp] at ht
      simp only [Option.getD_some] at ht
      rcases ht with ht | ht
      · obtain ⟨h, hh, he, _, _⟩ :=
          collectTargets_links_spec url _ t (List.mem_of_mem_take ht)
        exact ⟨h, hh, he⟩
      · obtain ⟨h, hh, he, _, _⟩ :=
          collectTargets_files_spec url _ t (List.mem_of_mem_take ht)
        exact ⟨h, hh, he⟩
  | false =>
      rw [analyze_dir_failure decode anchorsOf net url hfp] at ht
      obtain ⟨hl, hf⟩ := fetch_page_no_analysis decode anchorsOf net url
      rw [hl, hf] at ht
      simp at ht

/-- Witness for C2 at the redirecting page. -/
theorem analyze_dir_resolves_input_url_witness :
    ("http://a.com/page.html" ∈
      (analyze_dir nullDecode relAnchors redirNet "http://a.com/dir").links.getD [] ∨
     "http://a.com/page.html" ∈
      (analyze_dir nullDecode relAnchors redirNet "http://a.com/dir").files.getD []) ∧
    ∃ h ∈ (fetch_page nullDecode relAnchors redirNet "http://a.com/dir").soup.getD [],
      "http://a.com/page.html" = urljoin "http://a.com/dir" (pyStrip h) := by
  have ht : ("http://a.com/page.html" ∈
      (analyze_dir nullDecode relAnchors redirNet "http://a.com/dir").links.getD [] ∨
     "http://a.com/page.html" ∈
      (analyze_dir nullDecode relAnchors redirNet "http://a.com/dir").files.getD []) :=
    Or.inr (by decide)
  exact ⟨ht, analyze_dir_resolves_input_url nullDecode relAnchors redirNet
    "http://a.com/dir" "http://a.com/page.html" ht⟩

/-- C3 counterexample: the anchor href `b.php?x=1` on `http://a.com/`
resolves to `http://a.com/b.php?x=1`, whose path component `/b.php` ends
in a 1-4 alphanumeric extension — the claim calls it a file — yet the
code runs the regex on the raw href, which ends in `?x=1`, so the target
lands in `links`, not `files`. -/
theorem analyze_dir_path_classification_refuted :
    (analyze_dir nullDecode queryAnchors plainNet "http://a.com/").links =
      some ["http://a.com/b.php?x=1"] ∧
    (analyze_dir nullDecode queryAnchors plainNet "http://a.com/").files = some [] ∧
    specFileByPath "http://a.com/b.php?x=1" = true := by
  refine ⟨by decide, by decide, by decide⟩

/-- C3 corrected: a target goes to `files` exactly when the raw stripped
href matches the extension regex (a dot then 1-4 alphanumerics at the end
of the whole href string), and to `links` when it does not; on hrefs with
no query or fragment this coincides with the path rule, giving the
claim's examples: `/a/b.pdf` file, `/a/b/` link, `/a/b` link,
`/a/b.tar.gz` file. -/
theorem analyze_dir_href_classification (decode : List Nat → String)
    (anchorsOf : String → List String) (net : String → Transport) (url : String) :
    (∀ t ∈ (analyze_dir decode anchorsOf net url).files.getD [],
       ∃ h ∈ (fetch_page decode anchorsOf net url).soup.getD [],
         t = urljoin url (pyStrip h) ∧ hasExt (pyStrip h) = true) ∧
    (∀ t ∈ (analyze_dir decode anchorsOf net url).links.getD [],
       ∃ h ∈ (fetch_page decode anchorsOf net url).soup.getD [],
         t = urljoin url (pyStrip h) ∧ hasExt (pyStrip h) = false) ∧
    hasExt "/a/b.pdf" = true ∧ hasExt "/a/b/" = false ∧ hasExt "/a/b" = false ∧
    hasExt "/a/b.tar.gz" = true := by
  refine ⟨?_, ?_, by decide, by decide, by decide, by decide⟩
  · intro t ht
    cases hfp : (fetch_page decode anchorsOf net url).ok with
    | true =>
        rw [analyze_dir_success decode anchorsOf net url hfp] at ht
        simp only [Option.getD_some] at ht
        obtain ⟨h, hh, he, hext, _⟩ :=
          collectTargets_files_spec url _ t (List.mem_of_mem_take ht)
        exact ⟨h, hh, he, hext⟩
    | false =>
        rw [analyze_dir_failure decode anchorsOf net url hfp] at ht
        obtain ⟨hl, hf⟩ := fetch_page_no_analysis decode anchorsOf net url
        rw [hf] at ht
        simp at ht
  · intro t ht
    cases hfp : (fetch_page decode anchorsOf net url).ok with
    | true =>
        rw [analyze_dir_success decode anchorsOf net url hfp] at ht
        simp only [Option.getD_some] at ht
        obtain ⟨h, hh, he, hext, _⟩ :=
          collectTargets_links_spec url _ t (List.mem_of_mem_take ht)
        exact ⟨h, hh, he, hext⟩
    | false =>
        rw [analyze_dir_failure decode anchorsOf net url hfp] at ht
        obtain ⟨hl, hf⟩ := fetch_page_no_analysis decode anchorsOf net url
        rw [hl] at ht
        simp at ht

/-- Witness for C3 at the query-string page. -/
theorem analyze_dir_href_classification_witness :
    ("http://a.com/b.php?x=1" ∈
      (analyze_dir nullDecode queryAnchors plainNet "http://a.com/").links.getD []) ∧
    ∃ h ∈ (fetch_page nullDecode queryAnchors plainNet "http://a.com/").soup.getD [],
      "http://a.com/b.php?x=1" = urljoin "http://a.com/" (pyStrip h) ∧
      hasExt (pyStrip h) = false := by
  have hm : "http://a.com/b.php?x=1" ∈
      (analyze_dir nullDecode queryAnchors plainNet "http://a.com/").links.getD [] := by
    decide
  exact ⟨hm, (analyze_dir_href_classification nullDecode queryAnchors plainNet
    "http://a.com/").2.1 "http://a.com/b.php?x=1" hm⟩

/-- C9: every entry of `links` and `files` is a well-formed absolute
http/https URL (invalid targets are discarded), each list has at most 20
entries, each is a sublist of the resolved targets in document encounter
order, and on success each equals the first 20 qualifying entries. -/
theorem analyze_dir_caps_validity (decode : List Nat → String)
    (anchorsOf : String → List String) (net : String → Transport) (url : String) :
    (∀ t ∈ (analyze_dir decode anchorsOf net url).links.getD [], is_valid_url t = true) ∧
    (∀ t ∈ (analyze_dir decode anchorsOf net url).files.getD [], is_valid_url t = true) ∧
    ((analyze_dir decode anchorsOf net url).links.getD []).length ≤ 20 ∧
    ((analyze_dir decode anchorsOf net url).files.getD []).length ≤ 20 ∧
    ((analyze_dir decode anchorsOf net url).links.getD []).Sublist
      (((fetch_page decode anchorsOf net url).soup.getD []).map
        (fun h => urljoin url (pyStrip h))) ∧
    ((analyze_dir decode anchorsOf net url).files.getD []).Sublist
      (((fetch_page decode anchorsOf net url).soup.getD []).map
        (fun h => urljoin url (pyStrip h))) ∧
    (((analyze_dir decode anchorsOf net url).links = none ∧
      (analyze_dir decode anchorsOf net url).files = none) ∨
     ((analyze_dir decode anchorsOf net url).links = some
        ((collectTargets url ((fetch_page decode anchorsOf net url).soup.getD [])).1.take 20) ∧
      (analyze_dir decode anchorsOf net url).files = some
        ((collectTargets url ((fetch_page decode anchorsOf net url).soup.getD [])).2.take 20))) := by
  cases hfp : (fetch_page decode anchorsOf net url).ok with
  | false =>
      have heq := analyze_dir_failure decode anchorsOf net url hfp
      obtain ⟨hl, hf⟩ := fetch_page_no_analysis decode anchorsOf net url
      rw [heq, hl, hf]
      simp
  | true =>
      have heq := analyze_dir_success decode anchorsOf net url hfp
      refine ⟨?_, ?_, ?_, ?_, ?_, ?_, Or.inr ⟨?_, ?_⟩⟩
      · intro t ht
        rw [heq] at ht
        simp only [Option.getD_some] at ht
        obtain ⟨h, hh, he, _, hval⟩ :=
          collectTargets_links_spec url _ t (List.mem_of_mem_take ht)
        exact hval
      · intro t ht
        rw [heq] at ht
        simp only [Option.getD_some] at ht
        obtain ⟨h, hh, he, _, hval⟩ :=
          collectTargets_files_spec url _ t (List.mem_of_mem_take ht)
        exact hval
      · rw [heq]
        simp only [Option.getD_some]
        rw [List.length_take]
        omega
      · rw [heq]
        simp only [Option.getD_some]
        rw [List.length_take]
        omega
      · rw [heq]
        simp only [Option.getD_some]
        exact (List.take_sublist _ _).trans (collectTargets_links_sublist url _)
      · rw [heq]
        simp only [Option.getD_some]
        exact (List.take_sublist _ _).trans (collectTargets_files_sublist url _)
      · rw [heq]
      · rw [heq]

/-- Witness for C9 at the query-string page. -/
theorem analyze_dir_caps_validity_witness :
    ("http://a.com/b.php?x=1" ∈
      (analyze_dir nullDecode queryAnchors plainNet "http://a.com/").links.getD []) ∧
    is_valid_url "http://a.com/b.php?x=1" = true ∧
    ((analyze_dir nullDecode queryAnchors plainNet "http://a.com/").links.getD []).length
      ≤ 20 := by
  have h := analyze_dir_caps_validity nullDecode queryAnchors plainNet "http://a.com/"
  have hm : "http://a.com/b.php?x=1" ∈
      (analyze_dir nullDecode queryAnchors plainNet "http://a.com/").links.getD [] := by
    decide
  exact ⟨hm, h.1 "http://a.com/b.php?x=1" hm, h.2.2.1⟩

/-- The navigation buttons never change the `found` list, page size or
page count. -/
lemma navStep_preserves (v : DirectoryView) (op : NavOp) :
    (navStep v op).max_pages = v.max_pages ∧
    (navStep v op).found = v.found ∧
    (navStep v op).page_size = v.page_size := by
  cases op <;>
    simp only [navStep, DirectoryView.prev_page, DirectoryView.next_page] <;>
    split <;> simp

/-- One button press keeps `current_page` inside `[0, max_pages - 1]`. -/
lemma navStep_bounds (v : DirectoryView) (op : NavOp)
    (h0 : 0 ≤ v.current_page) (h1 : v.current_page ≤ v.max_pages - 1) :
    0 ≤ (navStep v op).current_page ∧
    (navStep v op).current_page ≤ (navStep v op).max_pages - 1 := by
  cases op <;>
    simp only [navStep, DirectoryView.prev_page, DirectoryView.next_page] <;>
    split <;> (try simp) <;> omega

/-- Any sequence of button presses keeps `current_page` inside
`[0, max_pages - 1]` and never changes `max_pages`. -/
lemma runNav_bounds : ∀ (ops : List NavOp) (v : DirectoryView),
    0 ≤ v.current_page → v.current_page ≤ v.max_pages - 1 →
    0 ≤ (runNav v ops).current_page ∧
    (runNav v ops).current_page ≤ (runNav v ops).max_pages - 1 ∧
    (runNav v ops).max_pages = v.max_pages := by
  intro ops
  induction ops with
  | nil =>
      intro v h0 h1
      exact ⟨h0, h1, rfl⟩
  | cons op rest ih =>
      intro v h0 h1
      have hb := navStep_bounds v op h0 h1
      have hrec := ih (navStep v op) hb.1 hb.2
      have hrun : runNav v (op :: rest) = runNav (navStep v op) rest := rfl
      rw [hrun]
      exact ⟨hrec.1, hrec.2.1, hrec.2.2.trans (navStep_preserves v op).1⟩

/-- C8 counterexample: over the empty found list, `max_pages = 0` while
`current_page = 0`, which lies outside `[0, max_pages - 1]`, so the claimed
bound does not hold for every found list. -/
theorem paginator_empty_bounds_refuted :
    (DirectoryView.init "http://e.com" []).max_pages = 0 ∧
    (DirectoryView.init "http://e.com" []).current_page = 0 ∧
    ¬((DirectoryView.init "http://e.com" []).current_page ≤
        (DirectoryView.init "http://e.com" []).max_pages - 1) := by
  refine ⟨rfl, rfl, by decide⟩

/-- C8 corrected: `max_pages` is the ceiling of `found.length / 10`
(characterised by the two inequalities); for a NONEMPTY found list,
`current_page` stays in `[0, max_pages - 1]` under any sequence of
navigation presses (for the empty list it stays fixed at 0 with
`max_pages = 0`); retreat at page 0 and advance at the last page change
nothing; and with 23 items `max_pages = 3` and page 1 shows items
10 to 19. -/
theorem paginator_invariants :
    (∀ (base : String) (found : List HeadResult),
      (found.length : Int) ≤ 10 * (DirectoryView.init base found).max_pages ∧
      10 * (DirectoryView.init base found).max_pages < (found.length : Int) + 10) ∧
    (∀ (base : String) (found : List HeadResult) (ops : List NavOp), found ≠ [] →
      0 ≤ (runNav (DirectoryView.init base found) ops).current_page ∧
      (runNav (DirectoryView.init base found) ops).current_page ≤
        (runNav (DirectoryView.init base found) ops).max_pages - 1) ∧
    (∀ v : DirectoryView, v.current_page = 0 → v.prev_page = v) ∧
    (∀ v : DirectoryView, v.current_page = v.max_pages - 1 → v.next_page = v) ∧
    (∀ (base : String) (found : List HeadResult), found.length = 23 →
      (DirectoryView.init base found).max_pages = 3 ∧
      ((DirectoryView.init base found).next_page).current_page = 1 ∧
      ((DirectoryView.init base found).next_page).page_items =
        (found.drop 10).take 10) := by
  refine ⟨?_, ?_, ?_, ?_, ?_⟩
  · intro base found
    simp only [DirectoryView.init]
    omega
  · intro base found ops hne
    have hlen : 0 < found.length := List.length_pos.mpr hne
    have h0 : (0 : Int) ≤ (DirectoryView.init base found).current_page := by
      simp [DirectoryView.init]
    have h1 : (DirectoryView.init base found).current_page ≤
        (DirectoryView.init base found).max_pages - 1 := by
      simp only [DirectoryView.init]
      omega
    have h := runNav_bounds ops (DirectoryView.init base found) h0 h1
    exact ⟨h.1, h.2.1⟩
  · intro v hv
    simp [DirectoryView.prev_page, hv]
  · intro v hv
    simp [DirectoryView.next_page, hv]
  · intro base found h23
    refine ⟨?_, ?_, ?_⟩
    · simp [DirectoryView.init, h23]
    · simp [DirectoryView.init, DirectoryView.next_page, h23]
    · have hnp : (DirectoryView.init base found).next_page =
          { base_url := base, found := found, page_size := 10, current_page := 1,
            max_pages := 3 } := by
        simp [DirectoryView.init, DirectoryView.next_page, h23]
      rw [hnp]
      simp [DirectoryView.page_items]

/-- Witness for C8 over the concrete 23-item list. -/
theorem paginator_invariants_witness :
    ((found23.length : Int) ≤ 10 * (DirectoryView.init "b" found23).max_pages) ∧
    (0 ≤ (runNav (DirectoryView.init "b" found23)
        [.advance, .advance, .advance]).current_page ∧
     (runNav (DirectoryView.init "b" found23)
        [.advance, .advance, .advance]).current_page ≤
       (runNav (DirectoryView.init "b" found23)
        [.advance, .advance, .advance]).max_pages - 1) ∧
    (DirectoryView.init "b" found23).prev_page = DirectoryView.init "b" found23 ∧
    (runNav (DirectoryView.init "b" found23) [.advance, .advance]).next_page =
      runNav (DirectoryView.init "b" found23) [.advance, .advance] ∧
    (DirectoryView.init "b" found23).max_pages = 3 ∧
    ((DirectoryView.init "b" found23).next_page).page_items =
      (found23.drop 10).take 10 := by
  have h := paginator_invariants
  have h5 := h.2.2.2.2 "b" found23 (by decide)
  exact ⟨(h.1 "b" found23).1,
    h.2.1 "b" found23 [.advance, .advance, .advance] (by decide),
    h.2.2.1 _ rfl,
    h.2.2.2.1 _ (by decide),
    h5.1, h5.2.2⟩

end Crawly
